import Mathlib

/-!
# Token store of gphotos-uploader-cli (package `datastore/tokenstore`)

A shallow embedding of `tokenstore.go` and `tokenstore_leveldb.go`.

* Go `string` and `[]byte` values are byte sequences (`Bytes`); the conversions
  `[]byte(s)` and `string(b)` are the identity on them.
* Go `error` values are terms of `GoError`; equality of two terms is equality of
  their cause chains and messages (the program counter recorded by the
  stacktrace package and pointer identity are not modelled).
* A Go result pair `(value, err)` is kept as a pair: both components are
  visible, as they are to Go code.
* The libraries the package calls are its environment.  `encoding/json` on
  `*oauth2.Token` and `Token.Valid` are the fields of `Env`; the OS keyring
  and the leveldb handle are finite maps with an optional fault that makes
  every operation fail; `runtime.GOOS` and the outcome of `dbus.SessionBus`
  are arguments of `KeyRingSupported`.
* Every function returns, next to its Go results, the list of library calls
  it performed, in order.
-/

namespace Tokenstore

/-- Byte sequences: Go values of type `string` and `[]byte`. -/
abbrev Bytes := List UInt8

/-- The bytes (UTF-8) of a string literal of the source. -/
def utf8 (s : String) : Bytes := s.toList.flatMap String.utf8EncodeChar

/-- Go error values that occur in the package. -/
inductive GoError where
  /-- The sentinel `keyring.ErrNotFound` of go-keyring. -/
  | keyringErrNotFound
  /-- The sentinel `leveldb.ErrNotFound` of goleveldb. -/
  | leveldbErrNotFound
  /-- Any other error value made by a library (dbus, keyring, leveldb, json). -/
  | external (msg : String)
  /-- The value of `stacktrace.Propagate(cause, msg)`. -/
  | propagate (cause : GoError) (msg : String)
  /-- The value of `stacktrace.NewError(msg)`. -/
  | newError (msg : String)
  deriving DecidableEq

/-- The causal chain of an error: the error itself, then the cause it wraps,
and so on down to the originating error. -/
def GoError.chain : GoError → List GoError
  | .propagate cause msg => .propagate cause msg :: cause.chain
  | e => [e]

/-- Library calls performed by the package, as recorded in call traces. -/
inductive Call where
  | logPrint (msg : String)
  | logPrintf (format : String) (args : List Bytes)
  | dbusSessionBus
  | keyringGet (service user : Bytes)
  | keyringSet (service user password : Bytes)
  | dbGet (key : Bytes)
  | dbPut (key value : Bytes)
  | jsonMarshal
  | jsonUnmarshal (data : Bytes)
  | tokenValid
  deriving DecidableEq

/-- The environment of the package for a credential type `Token`
(`*oauth2.Token` in the source). -/
structure Env (Token : Type) where
  /-- The result of `json.Marshal(token)`. -/
  marshal : Token → Except GoError Bytes
  /-- The result of `json.Unmarshal(data, &token)` on a fresh `token`, for
  non-empty `data`: the decoded token, or the error. -/
  unmarshal : Bytes → Except GoError Token
  /-- The result of `token.Valid()` at the time of the call. -/
  valid : Token → Bool

/-- The call `json.Unmarshal(data, &token)`: empty input is a syntax error of
encoding/json, any other input is decoded by the environment. -/
def jsonUnmarshal {Token : Type} (env : Env Token) (data : Bytes) : Except GoError Token :=
  if data = [] then .error (.external "unexpected end of JSON input") else env.unmarshal data

/-! ## tokenstore.go -/

/-- Source constant `serviceName`. -/
def serviceName : Bytes := utf8 "googlephotos-uploader-go-api"

/-- Result of `KeyRingSupported`: the returned boolean and the calls made. -/
structure ProbeResult where
  ret : Bool
  calls : List Call
  deriving DecidableEq

/-- Source function `KeyRingSupported`.  `goos` is `runtime.GOOS`; `sessionBus` is
the error that `dbus.SessionBus()` returns when it is called (`none` for nil). -/
def KeyRingSupported (goos : String) (sessionBus : Option GoError) : ProbeResult :=
  if goos = "linux" then
    match sessionBus with
    | some _ => ⟨false, [.dbusSessionBus, .logPrint "No Dbus support"]⟩
    | none => ⟨false, [.dbusSessionBus, .logPrint "Keyring is supported"]⟩
  else
    ⟨false, [.logPrint "Keyring is supported"]⟩

/-- Source variable `ErrNotFound`. -/
def ErrNotFound : GoError :=
  .propagate .keyringErrNotFound "failed retrieving token from keyring"

/-- Source variable `ErrInvalidToken`. -/
def ErrInvalidToken : GoError := .newError "invalid token"

/-- The OS keyring behind go-keyring: one secret per (service, user), and an
optional fault (for instance an unreachable secret service) with which every
call fails. -/
structure Keyring where
  secrets : Bytes → Bytes → Option Bytes
  fault : Option GoError

/-- Library call `keyring.Get(service, user)`: the secret and a nil error, or
`keyring.ErrNotFound` when there is none, or the fault. -/
def Keyring.Get (k : Keyring) (service user : Bytes) : Bytes × Option GoError :=
  match k.fault with
  | some e => ([], some e)
  | none =>
    match k.secrets service user with
    | some password => (password, none)
    | none => ([], some .keyringErrNotFound)

/-- Library call `keyring.Set(service, user, password)`: replaces the secret of
(service, user), or fails with the fault and changes nothing. -/
def Keyring.Set (k : Keyring) (service user password : Bytes) : Keyring × Option GoError :=
  match k.fault with
  | some e => (k, some e)
  | none =>
    (⟨fun s u => if s = service ∧ u = user then some password else k.secrets s u, none⟩, none)

/-- Result of a `StoreToken` call: the store afterwards, the returned error
(`none` for nil) and the calls made. -/
structure StoreResult (σ : Type) where
  state : σ
  err : Option GoError
  calls : List Call

/-- Result of a `RetrieveToken` call: the returned pointer (`none` for nil), the
returned error (`none` for nil) and the calls made. -/
structure RetrieveResult (Token : Type) where
  token : Option Token
  err : Option GoError
  calls : List Call

/-- Source method `TokenStoreKeyring.StoreToken`. -/
def TokenStoreKeyring.StoreToken {Token : Type} (env : Env Token) (k : Keyring)
    (googleUserEmail : Bytes) (token : Token) : StoreResult Keyring :=
  match env.marshal token with
  | .error err => ⟨k, some err, [.jsonMarshal]⟩
  | .ok tokenJSONBytes =>
    match k.Set serviceName googleUserEmail tokenJSONBytes with
    | (k', some err) =>
      ⟨k', some (.propagate err "failed storing token into keyring"),
        [.jsonMarshal, .keyringSet serviceName googleUserEmail tokenJSONBytes]⟩
    | (k', none) =>
      ⟨k', none, [.jsonMarshal, .keyringSet serviceName googleUserEmail tokenJSONBytes]⟩

/-- Source method `TokenStoreKeyring.RetrieveToken`. -/
def TokenStoreKeyring.RetrieveToken {Token : Type} (env : Env Token) (k : Keyring)
    (googleUserEmail : Bytes) : RetrieveResult Token :=
  match k.Get serviceName googleUserEmail with
  | (_, some err) =>
    ⟨none, some (.propagate err "failed retrieving token from keyring"),
      [.keyringGet serviceName googleUserEmail]⟩
  | (tokenJSONString, none) =>
    match jsonUnmarshal env tokenJSONString with
    | .error err =>
      ⟨none, some (.propagate err "failed unmarshaling token"),
        [.keyringGet serviceName googleUserEmail, .jsonUnmarshal tokenJSONString]⟩
    | .ok token =>
      if !env.valid token then
        ⟨none, some ErrInvalidToken,
          [.keyringGet serviceName googleUserEmail, .jsonUnmarshal tokenJSONString, .tokenValid]⟩
      else
        ⟨some token, none,
          [.keyringGet serviceName googleUserEmail, .jsonUnmarshal tokenJSONString, .tokenValid]⟩

/-! ## tokenstore_leveldb.go -/

/-- Source constant `keyPrefix`. -/
def keyPrefix : Bytes := utf8 "credential"

/-- Source function `keyFor`: the bytes of `fmt.Sprintf("%s_%s", keyPrefix, user)`. -/
def keyFor (user : Bytes) : Bytes := keyPrefix ++ utf8 "_" ++ user

/-- The goleveldb handle `*leveldb.DB`: one value per key, and an optional
fault (for instance a closed handle) with which every call fails. -/
structure LevelDB where
  entries : Bytes → Option Bytes
  fault : Option GoError

/-- Library call `DB.Get(key, nil)`: the value and a nil error, or a nil value
with `leveldb.ErrNotFound` when the key is absent, or a nil value with the fault. -/
def LevelDB.Get (db : LevelDB) (key : Bytes) : Bytes × Option GoError :=
  match db.fault with
  | some e => ([], some e)
  | none =>
    match db.entries key with
    | some value => (value, none)
    | none => ([], some .leveldbErrNotFound)

/-- Library call `DB.Put(key, value, nil)`: replaces the value of the key, or
fails with the fault and changes nothing. -/
def LevelDB.Put (db : LevelDB) (key value : Bytes) : LevelDB × Option GoError :=
  match db.fault with
  | some e => (db, some e)
  | none => (⟨fun k => if k = key then some value else db.entries k, none⟩, none)

/-- Source method `TokenLevelDB.RetrieveToken`. -/
def TokenLevelDB.RetrieveToken {Token : Type} (env : Env Token) (db : LevelDB)
    (user : Bytes) : RetrieveResult Token :=
  match db.Get (keyFor user) with
  | (tokenJSONString, err) =>
    if err = some .leveldbErrNotFound then
      ⟨none, err, [.dbGet (keyFor user), .logPrintf "Error finding credential" []]⟩
    else
      match jsonUnmarshal env tokenJSONString with
      | .error err =>
        ⟨none, some (.propagate err "failed unmarshaling token"),
          [.dbGet (keyFor user), .jsonUnmarshal tokenJSONString]⟩
      | .ok token =>
        ⟨some token, none, [.dbGet (keyFor user), .jsonUnmarshal tokenJSONString]⟩

/-- Source method `TokenLevelDB.StoreToken`. -/
def TokenLevelDB.StoreToken {Token : Type} (env : Env Token) (db : LevelDB)
    (user : Bytes) (token : Token) : StoreResult LevelDB :=
  match env.marshal token with
  | .error err => ⟨db, some err, [.jsonMarshal, .logPrintf "error marshalling token" []]⟩
  | .ok tokenJSONBytes =>
    match db.Put (keyFor user) tokenJSONBytes with
    | (db', some err) => ⟨db', some err, [.jsonMarshal, .dbPut (keyFor user) tokenJSONBytes]⟩
    | (db', none) =>
      ⟨db', none, [.jsonMarshal, .dbPut (keyFor user) tokenJSONBytes,
        .logPrintf "stored token for user: %s" [user]]⟩

/-! ## A concrete environment

The statements below hold for every environment.  The sample environment is a
small JSON-like codec with the validity rule of oauth2; it instantiates them
at concrete stores, identities and credentials. -/

/-- A small credential type for concrete instances: an access value and an
expiry in seconds since the epoch (0 for a token that does not expire). -/
structure SampleToken where
  AccessToken : Bytes
  Expiry : Nat
  deriving DecidableEq

/-- Decimal digits of a number, as bytes. -/
def decimal (n : Nat) : Bytes := (Nat.toDigits 10 n).map (fun c => c.toNat.toUInt8)

/-- The number written by a sequence of decimal digits. -/
def readDecimal (ds : Bytes) : Nat := ds.foldl (fun acc d => 10 * acc + (d.toNat - 48)) 0

/-- Encoder of the sample environment: a JSON object with the two fields. -/
def sampleMarshal (t : SampleToken) : Except GoError Bytes :=
  .ok (utf8 "\x7b\"access_token\":\"" ++ t.AccessToken ++ utf8 "\",\"expiry\":"
    ++ decimal t.Expiry ++ utf8 "\x7d")

/-- Removes a leading `p` from `l`, if there is one. -/
def dropLeading (p l : Bytes) : Option Bytes :=
  if p.isPrefixOf l then some (l.drop p.length) else none

/-- Decoder of the sample environment: accepts exactly the output format of
`sampleMarshal`, anything else is a syntax error. -/
def sampleUnmarshal (data : Bytes) : Except GoError SampleToken :=
  match dropLeading (utf8 "\x7b\"access_token\":\"") data with
  | none => .error (.external "invalid character looking for beginning of value")
  | some rest =>
    match dropLeading (utf8 "\",\"expiry\":") (rest.dropWhile (fun b => b != 34)) with
    | none => .error (.external "invalid character after object key:value pair")
    | some rest2 =>
      if rest2.takeWhile (fun b => decide (48 ≤ b.toNat ∧ b.toNat ≤ 57)) ≠ [] ∧
          rest2.dropWhile (fun b => decide (48 ≤ b.toNat ∧ b.toNat ≤ 57)) = utf8 "\x7d" then
        .ok ⟨rest.takeWhile (fun b => b != 34),
          readDecimal (rest2.takeWhile (fun b => decide (48 ≤ b.toNat ∧ b.toNat ≤ 57)))⟩
      else .error (.external "invalid character in numeric literal")

/-- Validity check of the sample environment at time `now`, after oauth2: the
access value is present and the expiry, when set, is at least ten seconds away. -/
def sampleValid (now : Nat) (t : SampleToken) : Bool :=
  decide (t.AccessToken ≠ []) && (t.Expiry == 0 || decide (now + 10 ≤ t.Expiry))

/-- The sample environment at time `now`. -/
def sampleEnv (now : Nat) : Env SampleToken := ⟨sampleMarshal, sampleUnmarshal, sampleValid now⟩

/-- Sample identity. -/
def alice : Bytes := utf8 "alice"

/-- Sample identity. -/
def bob : Bytes := utf8 "bob"

/-- Sample credential, valid at time 1000. -/
def tokA : SampleToken := ⟨utf8 "ya29.A", 2000⟩

/-- Sample credential without expiry. -/
def tokB : SampleToken := ⟨utf8 "ya29.B", 0⟩

/-- Sample credential whose expiry is in the past at time 1000. -/
def tokOld : SampleToken := ⟨utf8 "ya29.old", 500⟩

/-- Sample credential with an empty access value. -/
def tokEmpty : SampleToken := ⟨[], 2000⟩

/-- A reachable keyring without secrets. -/
def emptyKeyring : Keyring := ⟨fun _ _ => none, none⟩

/-- An open database without entries. -/
def emptyDB : LevelDB := ⟨fun _ => none, none⟩

/-- The error of goleveldb for a closed handle (`leveldb.ErrClosed`). -/
def leveldbErrClosed : GoError := .external "leveldb: closed"

/-- A database that holds a record for alice and whose handle has been closed. -/
def closedDB : LevelDB :=
  ⟨fun k => if k = keyFor alice then some (utf8 "\x7b\"access_token\":\"ya29.A\",\"expiry\":2000\x7d")
    else none, some leveldbErrClosed⟩

/-- A keyring whose secret service fails every call with the given error. -/
def faultyKeyring (e : GoError) : Keyring := ⟨fun _ _ => none, some e⟩

/-- What `json.Marshal` writes for the bytes of a string value, as far as the
bytes 0xf8 to 0xff go: such a byte cannot occur in UTF-8 and is written as the
escape of U+FFFD (backslash, u, f, f, f, d).  Other bytes are kept. -/
def escapeInvalid (s : Bytes) : Bytes :=
  s.flatMap (fun b => if 248 ≤ b.toNat then [92, 117, 102, 102, 102, 100] else [b])

/-- What `json.Unmarshal` reads from a string value: the escape of U+FFFD gives
the three bytes of that character in UTF-8.  Other bytes are kept. -/
def unescapeReplacement : Bytes → Bytes
  | 92 :: 117 :: 102 :: 102 :: 102 :: 100 :: rest => 239 :: 191 :: 189 :: unescapeReplacement rest
  | b :: rest => b :: unescapeReplacement rest
  | [] => []

/-- The sample environment at time `now` with the replacement of invalid UTF-8
that encoding/json performs on string values: the encoder escapes the access
value, the decoder reads the escape back. -/
def replacingEnv (now : Nat) : Env SampleToken :=
  ⟨fun t => sampleMarshal ⟨escapeInvalid t.AccessToken, t.Expiry⟩,
    fun data => (sampleUnmarshal data).map
      (fun t => ⟨unescapeReplacement t.AccessToken, t.Expiry⟩),
    sampleValid now⟩

/-- Sample credential without expiry whose access value is the single byte
0xff, which is not UTF-8. -/
def tokRaw : SampleToken := ⟨[255], 0⟩

/-- Sample credential whose access value is the single byte 0xff and whose
expiry is in the past at time 1000. -/
def tokRawOld : SampleToken := ⟨[255], 500⟩

/-! ## Shared lemmas -/

theorem keyring_get_set_same (k : Keyring) (service user password : Bytes)
    (h : (k.Set service user password).2 = none) :
    (k.Set service user password).1.Get service user = (password, none) := by
  unfold Keyring.Set at h ⊢
  cases hf : k.fault with
  | some e => simp [hf] at h
  | none => simp [Keyring.Get]

theorem keyring_get_set_other (k : Keyring) (service user user2 password : Bytes)
    (hne : user2 ≠ user) :
    (k.Set service user password).1.Get service user2 = k.Get service user2 := by
  unfold Keyring.Set
  cases hf : k.fault with
  | some e => rfl
  | none => simp [Keyring.Get, hf, hne]

theorem keyring_secrets_set_other (k : Keyring) (service user user2 password : Bytes)
    (hne : user2 ≠ user) :
    (k.Set service user password).1.secrets service user2 = k.secrets service user2 := by
  unfold Keyring.Set
  cases hf : k.fault with
  | some e => rfl
  | none => simp [hne]

theorem leveldb_get_put_same (db : LevelDB) (key value : Bytes)
    (h : (db.Put key value).2 = none) :
    (db.Put key value).1.Get key = (value, none) := by
  unfold LevelDB.Put at h ⊢
  cases hf : db.fault with
  | some e => simp [hf] at h
  | none => simp [LevelDB.Get]

theorem leveldb_get_put_other (db : LevelDB) (key key2 value : Bytes) (hne : key2 ≠ key) :
    (db.Put key value).1.Get key2 = db.Get key2 := by
  unfold LevelDB.Put
  cases hf : db.fault with
  | some e => rfl
  | none => simp [LevelDB.Get, hf, hne]

theorem leveldb_entries_put_other (db : LevelDB) (key key2 value : Bytes) (hne : key2 ≠ key) :
    (db.Put key value).1.entries key2 = db.entries key2 := by
  unfold LevelDB.Put
  cases hf : db.fault with
  | some e => rfl
  | none => simp [hne]

theorem keyFor_cancel {a b : Bytes} (h : keyFor a = keyFor b) : a = b := by
  unfold keyFor at h
  exact List.append_cancel_left h

section Backends

variable {Token : Type} (env : Env Token)

/-- A keyring `StoreToken` that returns nil has encoded the token and left the
encoding as the secret of the identity. -/
theorem keyring_store_ok (k : Keyring) (I : Bytes) (C : Token)
    (h : (TokenStoreKeyring.StoreToken env k I C).err = none) :
    ∃ b, env.marshal C = .ok b ∧
      (TokenStoreKeyring.StoreToken env k I C).state.Get serviceName I = (b, none) := by
  unfold TokenStoreKeyring.StoreToken at h ⊢
  cases hm : env.marshal C with
  | error e => simp [hm] at h
  | ok b =>
    refine ⟨b, rfl, ?_⟩
    have hs := keyring_get_set_same k serviceName I b
    simp only [hm] at h ⊢
    rcases hset : k.Set serviceName I b with ⟨k', _ | e⟩
    · simp only [hset] at hs ⊢
      exact hs trivial
    · simp [hset] at h

/-- A keyring `StoreToken` for one identity does not change what `keyring.Get`
returns for another, whether it succeeds or fails. -/
theorem keyring_store_frame (k : Keyring) (I J : Bytes) (C : Token) (hne : J ≠ I) :
    (TokenStoreKeyring.StoreToken env k I C).state.Get serviceName J = k.Get serviceName J := by
  unfold TokenStoreKeyring.StoreToken
  cases hm : env.marshal C with
  | error e => rfl
  | ok b =>
    have hs := keyring_get_set_other k serviceName I J b hne
    rcases hset : k.Set serviceName I b with ⟨k', _ | e⟩ <;> simp only [hset] at hs ⊢ <;> exact hs

/-- A keyring `StoreToken` for one identity does not change the secret of another. -/
theorem keyring_store_secrets_frame (k : Keyring) (I J : Bytes) (C : Token) (hne : J ≠ I) :
    (TokenStoreKeyring.StoreToken env k I C).state.secrets serviceName J
      = k.secrets serviceName J := by
  unfold TokenStoreKeyring.StoreToken
  cases hm : env.marshal C with
  | error e => rfl
  | ok b =>
    have hs := keyring_secrets_set_other k serviceName I J b hne
    rcases hset : k.Set serviceName I b with ⟨k', _ | e⟩ <;> simp only [hset] at hs ⊢ <;> exact hs

/-- The keyring `RetrieveToken` depends on the keyring only through the result
of `keyring.Get` for the identity. -/
theorem keyring_retrieve_congr (k k' : Keyring) (J : Bytes)
    (h : k'.Get serviceName J = k.Get serviceName J) :
    TokenStoreKeyring.RetrieveToken env k' J = TokenStoreKeyring.RetrieveToken env k J := by
  unfold TokenStoreKeyring.RetrieveToken
  rw [h]

/-- The keyring `RetrieveToken` on a readable record that decodes. -/
theorem keyring_retrieve_decoded (k : Keyring) (I b : Bytes) (C : Token)
    (hg : k.Get serviceName I = (b, none)) (hd : jsonUnmarshal env b = .ok C) :
    (TokenStoreKeyring.RetrieveToken env k I).token = (if env.valid C then some C else none) ∧
    (TokenStoreKeyring.RetrieveToken env k I).err =
      (if env.valid C then none else some ErrInvalidToken) := by
  unfold TokenStoreKeyring.RetrieveToken
  simp only [hg, hd]
  cases env.valid C <;> simp

/-- The keyring `RetrieveToken` on a readable record that does not decode. -/
theorem keyring_retrieve_undecodable (k : Keyring) (I b : Bytes) (e : GoError)
    (hg : k.Get serviceName I = (b, none)) (hd : jsonUnmarshal env b = .error e) :
    (TokenStoreKeyring.RetrieveToken env k I).token = none ∧
    (TokenStoreKeyring.RetrieveToken env k I).err
      = some (.propagate e "failed unmarshaling token") := by
  unfold TokenStoreKeyring.RetrieveToken
  simp only [hg, hd, and_self]

/-- A leveldb `StoreToken` that returns nil has encoded the token and left the
encoding as the value of the key of the identity. -/
theorem leveldb_store_ok (db : LevelDB) (I : Bytes) (C : Token)
    (h : (TokenLevelDB.StoreToken env db I C).err = none) :
    ∃ b, env.marshal C = .ok b ∧
      (TokenLevelDB.StoreToken env db I C).state.Get (keyFor I) = (b, none) := by
  unfold TokenLevelDB.StoreToken at h ⊢
  cases hm : env.marshal C with
  | error e => simp [hm] at h
  | ok b =>
    refine ⟨b, rfl, ?_⟩
    have hs := leveldb_get_put_same db (keyFor I) b
    simp only [hm] at h ⊢
    rcases hput : db.Put (keyFor I) b with ⟨db', _ | e⟩
    · simp only [hput] at hs ⊢
      exact hs trivial
    · simp [hput] at h

/-- A leveldb `StoreToken` for one identity does not change what `DB.Get`
returns for the key of another, whether it succeeds or fails. -/
theorem leveldb_store_frame (db : LevelDB) (I J : Bytes) (C : Token) (hne : J ≠ I) :
    (TokenLevelDB.StoreToken env db I C).state.Get (keyFor J) = db.Get (keyFor J) := by
  unfold TokenLevelDB.StoreToken
  cases hm : env.marshal C with
  | error e => rfl
  | ok b =>
    have hk : keyFor J ≠ keyFor I := fun h => hne (keyFor_cancel h)
    have hs := leveldb_get_put_other db (keyFor I) (keyFor J) b hk
    rcases hput : db.Put (keyFor I) b with ⟨db', _ | e⟩ <;> simp only [hput] at hs ⊢ <;> exact hs

/-- A leveldb `StoreToken` for one identity does not change the entry of another. -/
theorem leveldb_store_entries_frame (db : LevelDB) (I J : Bytes) (C : Token) (hne : J ≠ I) :
    (TokenLevelDB.StoreToken env db I C).state.entries (keyFor J) = db.entries (keyFor J) := by
  unfold TokenLevelDB.StoreToken
  cases hm : env.marshal C with
  | error e => rfl
  | ok b =>
    have hk : keyFor J ≠ keyFor I := fun h => hne (keyFor_cancel h)
    have hs := leveldb_entries_put_other db (keyFor I) (keyFor J) b hk
    rcases hput : db.Put (keyFor I) b with ⟨db', _ | e⟩ <;> simp only [hput] at hs ⊢ <;> exact hs

/-- The leveldb `RetrieveToken` depends on the database only through the result
of `DB.Get` for the key of the identity. -/
theorem leveldb_retrieve_congr (db db' : LevelDB) (J : Bytes)
    (h : db'.Get (keyFor J) = db.Get (keyFor J)) :
    TokenLevelDB.RetrieveToken env db' J = TokenLevelDB.RetrieveToken env db J := by
  unfold TokenLevelDB.RetrieveToken
  rw [h]

/-- The leveldb `RetrieveToken` on a readable record that decodes. -/
theorem leveldb_retrieve_decoded (db : LevelDB) (I b : Bytes) (C : Token)
    (hg : db.Get (keyFor I) = (b, none)) (hd : jsonUnmarshal env b = .ok C) :
    (TokenLevelDB.RetrieveToken env db I).token = some C ∧
    (TokenLevelDB.RetrieveToken env db I).err = none := by
  unfold TokenLevelDB.RetrieveToken
  simp [hg, hd]

/-- The leveldb `RetrieveToken` on a readable record that does not decode. -/
theorem leveldb_retrieve_undecodable (db : LevelDB) (I b : Bytes) (e : GoError)
    (hg : db.Get (keyFor I) = (b, none)) (hd : jsonUnmarshal env b = .error e) :
    (TokenLevelDB.RetrieveToken env db I).token = none ∧
    (TokenLevelDB.RetrieveToken env db I).err
      = some (.propagate e "failed unmarshaling token") := by
  unfold TokenLevelDB.RetrieveToken
  simp [hg, hd]

end Backends

/-! ## Key derivation -/

/-- C5: `keyFor u` is exactly the bytes of "credential_" followed by `u`, and
`keyFor` is injective: equal keys come from equal identities, also when the
identities contain the separator "_". -/
theorem keyFor_deterministic_injective :
    (∀ u : Bytes, keyFor u = utf8 "credential_" ++ u) ∧
    (∀ a b : Bytes, keyFor a = keyFor b → a = b) := by
  refine ⟨fun u => ?_, fun a b h => keyFor_cancel h⟩
  have h : keyPrefix ++ utf8 "_" = utf8 "credential_" := by decide
  unfold keyFor
  rw [h]

/-- Instance of C5 at two identities that contain the separator: "a_" and "a"
give the keys "credential_a_" and "credential_a", which differ. -/
theorem keyFor_deterministic_injective_witness :
    keyFor (utf8 "a_b") = utf8 "credential_a_b" ∧
    (keyFor (utf8 "a_b") = keyFor (utf8 "a_b") → utf8 "a_b" = utf8 "a_b") ∧
    keyFor (utf8 "a_") ≠ keyFor (utf8 "a") :=
  ⟨(keyFor_deterministic_injective.1 _).trans (by decide),
    keyFor_deterministic_injective.2 _ _,
    fun h => absurd (keyFor_deterministic_injective.2 _ _ h) (by decide)⟩

/-! ## The availability probe -/

/-- C7: evaluation of the probe.  On a linux host whose session bus connection
succeeds, `KeyRingSupported` performs the check, logs "Keyring is supported"
and returns false; it returns false for every platform and every outcome of
the check. -/
theorem KeyRingSupported_linux_reachable_returns_false :
    KeyRingSupported "linux" none
      = ⟨false, [.dbusSessionBus, .logPrint "Keyring is supported"]⟩ ∧
    (∀ (goos : String) (sessionBus : Option GoError),
      (KeyRingSupported goos sessionBus).ret = false) := by
  refine ⟨by decide, fun goos sessionBus => ?_⟩
  unfold KeyRingSupported
  split
  · cases sessionBus <;> rfl
  · rfl

/-- C8: on every platform other than linux the probe returns false, makes no
`dbus.SessionBus` call, and its result does not depend on what that call
would have returned. -/
theorem KeyRingSupported_short_circuit (goos : String) (sessionBus : Option GoError)
    (h : goos ≠ "linux") :
    (KeyRingSupported goos sessionBus).ret = false ∧
    Call.dbusSessionBus ∉ (KeyRingSupported goos sessionBus).calls ∧
    KeyRingSupported goos sessionBus = KeyRingSupported goos none := by
  unfold KeyRingSupported
  simp [h]

/-- Instance of C8 on a darwin host, with a session bus that would fail. -/
theorem KeyRingSupported_short_circuit_witness :
    "darwin" ≠ "linux" ∧
    (KeyRingSupported "darwin" (some (.external "dbus: no session bus"))).ret = false ∧
    Call.dbusSessionBus ∉
      (KeyRingSupported "darwin" (some (.external "dbus: no session bus"))).calls ∧
    KeyRingSupported "darwin" (some (.external "dbus: no session bus"))
      = KeyRingSupported "darwin" none :=
  ⟨by decide, KeyRingSupported_short_circuit "darwin" _ (by decide)⟩

/-! ## Round trip and overwrite -/

/-- C1 fails when the codec does not return the credential it was given.  In
the environment that replaces invalid UTF-8, `tokRaw` (access value 0xff, no
expiry) is valid; alice stores it in an empty keyring and in an empty database
with a nil error, and `RetrieveToken` returns a nil error and a credential
whose access value is U+FFFD, which is not `tokRaw`. -/
theorem roundtrip_changes_invalid_utf8 :
    (replacingEnv 1000).valid tokRaw = true ∧
    (TokenStoreKeyring.StoreToken (replacingEnv 1000) emptyKeyring alice tokRaw).err = none ∧
    (TokenStoreKeyring.RetrieveToken (replacingEnv 1000)
      (TokenStoreKeyring.StoreToken (replacingEnv 1000) emptyKeyring alice tokRaw).state
      alice).err = none ∧
    (TokenStoreKeyring.RetrieveToken (replacingEnv 1000)
      (TokenStoreKeyring.StoreToken (replacingEnv 1000) emptyKeyring alice tokRaw).state
      alice).token = some ⟨[239, 191, 189], 0⟩ ∧
    (TokenStoreKeyring.RetrieveToken (replacingEnv 1000)
      (TokenStoreKeyring.StoreToken (replacingEnv 1000) emptyKeyring alice tokRaw).state
      alice).token ≠ some tokRaw ∧
    (TokenLevelDB.StoreToken (replacingEnv 1000) emptyDB alice tokRaw).err = none ∧
    (TokenLevelDB.RetrieveToken (replacingEnv 1000)
      (TokenLevelDB.StoreToken (replacingEnv 1000) emptyDB alice tokRaw).state
      alice).err = none ∧
    (TokenLevelDB.RetrieveToken (replacingEnv 1000)
      (TokenLevelDB.StoreToken (replacingEnv 1000) emptyDB alice tokRaw).state
      alice).token ≠ some tokRaw := by
  refine ⟨by decide, by rfl, by rfl, by rfl, by decide, by rfl, by rfl, by decide⟩

/-- C1, amended: round trip with unconditional overwrite.  For each backend,
every prior state of the store, every identity `I` and every credential `C`, a
`StoreToken(I, C)` that returns nil has stored the encoding `b` of `C`, and the
following `RetrieveToken(I)` returns a nil error and the credential `D` that
`b` decodes to (in the keyring backend: when `D` passes the validity check at
retrieval time).  When the codec decodes the encoding of `C` back to `C`, the
credential returned is `C`; in particular, after an earlier successful
`StoreToken(I, C1)` the retrieval returns `C`, not `C1`. -/
theorem store_retrieve_roundtrip {Token : Type} (env : Env Token) (I : Bytes) (C : Token) :
    (∀ k : Keyring, (TokenStoreKeyring.StoreToken env k I C).err = none →
      ∃ b, env.marshal C = .ok b ∧
        ∀ D : Token, jsonUnmarshal env b = .ok D → env.valid D = true →
          (TokenStoreKeyring.RetrieveToken env
            (TokenStoreKeyring.StoreToken env k I C).state I).token = some D ∧
          (TokenStoreKeyring.RetrieveToken env
            (TokenStoreKeyring.StoreToken env k I C).state I).err = none) ∧
    (∀ db : LevelDB, (TokenLevelDB.StoreToken env db I C).err = none →
      ∃ b, env.marshal C = .ok b ∧
        ∀ D : Token, jsonUnmarshal env b = .ok D →
          (TokenLevelDB.RetrieveToken env
            (TokenLevelDB.StoreToken env db I C).state I).token = some D ∧
          (TokenLevelDB.RetrieveToken env
            (TokenLevelDB.StoreToken env db I C).state I).err = none) ∧
    ((∀ b, env.marshal C = .ok b → jsonUnmarshal env b = .ok C) →
      (∀ k : Keyring, env.valid C = true →
        (TokenStoreKeyring.StoreToken env k I C).err = none →
        (TokenStoreKeyring.RetrieveToken env
          (TokenStoreKeyring.StoreToken env k I C).state I).token = some C ∧
        (TokenStoreKeyring.RetrieveToken env
          (TokenStoreKeyring.StoreToken env k I C).state I).err = none) ∧
      (∀ db : LevelDB,
        (TokenLevelDB.StoreToken env db I C).err = none →
        (TokenLevelDB.RetrieveToken env
          (TokenLevelDB.StoreToken env db I C).state I).token = some C ∧
        (TokenLevelDB.RetrieveToken env
          (TokenLevelDB.StoreToken env db I C).state I).err = none) ∧
      (∀ (k : Keyring) (C1 : Token), env.valid C = true →
        (TokenStoreKeyring.StoreToken env k I C1).err = none →
        (TokenStoreKeyring.StoreToken env
          (TokenStoreKeyring.StoreToken env k I C1).state I C).err = none →
        (TokenStoreKeyring.RetrieveToken env (TokenStoreKeyring.StoreToken env
          (TokenStoreKeyring.StoreToken env k I C1).state I C).state I).token = some C ∧
        (TokenStoreKeyring.RetrieveToken env (TokenStoreKeyring.StoreToken env
          (TokenStoreKeyring.StoreToken env k I C1).state I C).state I).err = none) ∧
      (∀ (db : LevelDB) (C1 : Token),
        (TokenLevelDB.StoreToken env db I C1).err = none →
        (TokenLevelDB.StoreToken env
          (TokenLevelDB.StoreToken env db I C1).state I C).err = none →
        (TokenLevelDB.RetrieveToken env (TokenLevelDB.StoreToken env
          (TokenLevelDB.StoreToken env db I C1).state I C).state I).token = some C ∧
        (TokenLevelDB.RetrieveToken env (TokenLevelDB.StoreToken env
          (TokenLevelDB.StoreToken env db I C1).state I C).state I).err = none)) := by
  have hkr : ∀ k : Keyring, (TokenStoreKeyring.StoreToken env k I C).err = none →
      ∃ b, env.marshal C = .ok b ∧
        ∀ D : Token, jsonUnmarshal env b = .ok D → env.valid D = true →
          (TokenStoreKeyring.RetrieveToken env
            (TokenStoreKeyring.StoreToken env k I C).state I).token = some D ∧
          (TokenStoreKeyring.RetrieveToken env
            (TokenStoreKeyring.StoreToken env k I C).state I).err = none := by
    intro k hs
    obtain ⟨b, hm, hg⟩ := keyring_store_ok env k I C hs
    refine ⟨b, hm, fun D hd hv => ?_⟩
    have hr := keyring_retrieve_decoded env _ I b D hg hd
    simpa [hv] using hr
  have hdb : ∀ db : LevelDB, (TokenLevelDB.StoreToken env db I C).err = none →
      ∃ b, env.marshal C = .ok b ∧
        ∀ D : Token, jsonUnmarshal env b = .ok D →
          (TokenLevelDB.RetrieveToken env
            (TokenLevelDB.StoreToken env db I C).state I).token = some D ∧
          (TokenLevelDB.RetrieveToken env
            (TokenLevelDB.StoreToken env db I C).state I).err = none := by
    intro db hs
    obtain ⟨b, hm, hg⟩ := leveldb_store_ok env db I C hs
    exact ⟨b, hm, fun D hd => leveldb_retrieve_decoded env _ I b D hg hd⟩
  refine ⟨hkr, hdb, fun hcodec => ?_⟩
  have hkr2 : ∀ k : Keyring, env.valid C = true →
      (TokenStoreKeyring.StoreToken env k I C).err = none →
      (TokenStoreKeyring.RetrieveToken env
        (TokenStoreKeyring.StoreToken env k I C).state I).token = some C ∧
      (TokenStoreKeyring.RetrieveToken env
        (TokenStoreKeyring.StoreToken env k I C).state I).err = none := by
    intro k hv hs
    obtain ⟨b, hm, hD⟩ := hkr k hs
    exact hD C (hcodec b hm) hv
  have hdb2 : ∀ db : LevelDB,
      (TokenLevelDB.StoreToken env db I C).err = none →
      (TokenLevelDB.RetrieveToken env
        (TokenLevelDB.StoreToken env db I C).state I).token = some C ∧
      (TokenLevelDB.RetrieveToken env
        (TokenLevelDB.StoreToken env db I C).state I).err = none := by
    intro db hs
    obtain ⟨b, hm, hD⟩ := hdb db hs
    exact hD C (hcodec b hm)
  exact ⟨hkr2, hdb2, fun k C1 hv _ h2 => hkr2 _ hv h2, fun db C1 _ h2 => hdb2 _ h2⟩

/-- Instance of amended C1 at time 1000.  In the sample environment alice
stores `tokB` and then `tokA` in an empty keyring and in an empty database;
both stores succeed and retrieval returns `tokA`.  In the environment that
replaces invalid UTF-8, the encoding stored for `tokRaw` is the one the
following retrieval decodes. -/
theorem store_retrieve_roundtrip_witness :
    (sampleEnv 1000).valid tokA = true ∧
    (TokenStoreKeyring.StoreToken (sampleEnv 1000) emptyKeyring alice tokA).err = none ∧
    (TokenStoreKeyring.RetrieveToken (sampleEnv 1000)
      (TokenStoreKeyring.StoreToken (sampleEnv 1000) emptyKeyring alice tokA).state
      alice).token = some tokA ∧
    (TokenLevelDB.RetrieveToken (sampleEnv 1000)
      (TokenLevelDB.StoreToken (sampleEnv 1000) emptyDB alice tokA).state
      alice).token = some tokA ∧
    (TokenStoreKeyring.RetrieveToken (sampleEnv 1000) (TokenStoreKeyring.StoreToken
      (sampleEnv 1000) (TokenStoreKeyring.StoreToken (sampleEnv 1000) emptyKeyring alice
        tokB).state alice tokA).state alice).token = some tokA ∧
    (TokenLevelDB.RetrieveToken (sampleEnv 1000) (TokenLevelDB.StoreToken
      (sampleEnv 1000) (TokenLevelDB.StoreToken (sampleEnv 1000) emptyDB alice
        tokB).state alice tokA).state alice).err = none ∧
    (∃ b, (replacingEnv 1000).marshal tokRaw = .ok b ∧
      ∀ D : SampleToken, jsonUnmarshal (replacingEnv 1000) b = .ok D →
        (replacingEnv 1000).valid D = true →
        (TokenStoreKeyring.RetrieveToken (replacingEnv 1000)
          (TokenStoreKeyring.StoreToken (replacingEnv 1000) emptyKeyring alice tokRaw).state
          alice).token = some D ∧
        (TokenStoreKeyring.RetrieveToken (replacingEnv 1000)
          (TokenStoreKeyring.StoreToken (replacingEnv 1000) emptyKeyring alice tokRaw).state
          alice).err = none) :=
  have h := (store_retrieve_roundtrip (sampleEnv 1000) alice tokA).2.2
    (fun b hb => by cases hb; rfl)
  ⟨by decide, by rfl,
    (h.1 emptyKeyring (by decide) (by rfl)).1,
    (h.2.1 emptyDB (by rfl)).1,
    (h.2.2.1 emptyKeyring tokB (by decide) (by rfl) (by rfl)).1,
    (h.2.2.2 emptyDB tokB (by rfl) (by rfl)).2,
    (store_retrieve_roundtrip (replacingEnv 1000) alice tokRaw).1 emptyKeyring (by rfl)⟩

/-! ## Expiry enforcement in the keyring backend -/

/-- C2: the keyring `RetrieveToken` never returns a credential that fails the
validity check at retrieval time; after a successful `StoreToken(I, C)` of a
credential that fails the check (its expiry is in the past) and that the codec
decodes back to itself, `RetrieveToken(I)` returns no credential and
`ErrInvalidToken`. -/
theorem keyring_expiry_enforcement {Token : Type} (env : Env Token) :
    (∀ (k : Keyring) (I : Bytes) (tok : Token),
      (TokenStoreKeyring.RetrieveToken env k I).token = some tok → env.valid tok = true) ∧
    (∀ (k : Keyring) (I : Bytes) (C : Token), env.valid C = false →
      (∀ b, env.marshal C = .ok b → jsonUnmarshal env b = .ok C) →
      (TokenStoreKeyring.StoreToken env k I C).err = none →
      (TokenStoreKeyring.RetrieveToken env
        (TokenStoreKeyring.StoreToken env k I C).state I).token = none ∧
      (TokenStoreKeyring.RetrieveToken env
        (TokenStoreKeyring.StoreToken env k I C).state I).err = some ErrInvalidToken) := by
  constructor
  · intro k I tok h
    unfold TokenStoreKeyring.RetrieveToken at h
    rcases hg : k.Get serviceName I with ⟨b, _ | e⟩
    · simp only [hg] at h
      cases hd : jsonUnmarshal env b with
      | error e => simp [hd] at h
      | ok t =>
        simp only [hd] at h
        cases hv : env.valid t
        · simp [hv] at h
        · simp [hv] at h
          rw [← h]
          exact hv
    · simp [hg] at h
  · intro k I C hv hcodec hs
    obtain ⟨b, hm, hg⟩ := keyring_store_ok env k I C hs
    have hr := keyring_retrieve_decoded env _ I b C hg (hcodec b hm)
    simpa [hv] using hr

/-- Instance of C2 in the sample environment at time 1000: `tokOld` expired at
time 500; alice stores it in an empty keyring and retrieval returns
`ErrInvalidToken`. -/
theorem keyring_expiry_enforcement_witness :
    (sampleEnv 1000).valid tokOld = false ∧
    (TokenStoreKeyring.StoreToken (sampleEnv 1000) emptyKeyring alice tokOld).err = none ∧
    (TokenStoreKeyring.RetrieveToken (sampleEnv 1000)
      (TokenStoreKeyring.StoreToken (sampleEnv 1000) emptyKeyring alice tokOld).state
      alice).token = none ∧
    (TokenStoreKeyring.RetrieveToken (sampleEnv 1000)
      (TokenStoreKeyring.StoreToken (sampleEnv 1000) emptyKeyring alice tokOld).state
      alice).err = some ErrInvalidToken ∧
    (sampleEnv 1000).valid tokA = true :=
  ⟨by decide, by rfl,
    ((keyring_expiry_enforcement (sampleEnv 1000)).2 emptyKeyring alice tokOld (by decide)
      (fun b hb => by cases hb; rfl) (by rfl)).1,
    ((keyring_expiry_enforcement (sampleEnv 1000)).2 emptyKeyring alice tokOld (by decide)
      (fun b hb => by cases hb; rfl) (by rfl)).2,
    (keyring_expiry_enforcement (sampleEnv 1000)).1
      (TokenStoreKeyring.StoreToken (sampleEnv 1000) emptyKeyring alice tokA).state alice tokA
      (by rfl)⟩

/-! ## Retrieval from a store without a record -/

/-- C3 fails in the leveldb backend: on an open database without entries,
`RetrieveToken` for alice returns `leveldb.ErrNotFound` itself, which is not
the `ErrNotFound` of the package and does not have it in its causal chain. -/
theorem leveldb_not_found_is_not_ErrNotFound :
    emptyDB.fault = none ∧ emptyDB.entries (keyFor alice) = none ∧
    (TokenLevelDB.RetrieveToken (sampleEnv 1000) emptyDB alice).err
      = some GoError.leveldbErrNotFound ∧
    (TokenLevelDB.RetrieveToken (sampleEnv 1000) emptyDB alice).err ≠ some ErrNotFound ∧
    ErrNotFound ∉ GoError.leveldbErrNotFound.chain ∧
    GoError.keyringErrNotFound ∉ GoError.leveldbErrNotFound.chain := by
  refine ⟨rfl, rfl, by rfl, ?_, by decide, by decide⟩
  have h : (TokenLevelDB.RetrieveToken (sampleEnv 1000) emptyDB alice).err
      = some GoError.leveldbErrNotFound := by rfl
  rw [h]
  decide

/-- C3, amended: when the store is reachable and holds no record for `I`,
`RetrieveToken(I)` returns no credential and a not-found error, and its only
library calls are the read (and, for leveldb, a log line): nothing is decoded.
The error is `ErrNotFound` of the package in the keyring backend and the
`leveldb.ErrNotFound` of the database, unwrapped, in the leveldb backend. -/
theorem retrieve_not_found {Token : Type} (env : Env Token) (I : Bytes) :
    (∀ k : Keyring, k.fault = none → k.secrets serviceName I = none →
      (TokenStoreKeyring.RetrieveToken env k I).token = none ∧
      (TokenStoreKeyring.RetrieveToken env k I).err = some ErrNotFound ∧
      (TokenStoreKeyring.RetrieveToken env k I).calls = [.keyringGet serviceName I]) ∧
    (∀ db : LevelDB, db.fault = none → db.entries (keyFor I) = none →
      (TokenLevelDB.RetrieveToken env db I).token = none ∧
      (TokenLevelDB.RetrieveToken env db I).err = some .leveldbErrNotFound ∧
      (TokenLevelDB.RetrieveToken env db I).calls
        = [.dbGet (keyFor I), .logPrintf "Error finding credential" []]) := by
  constructor
  · intro k hf hs
    have hg : k.Get serviceName I = ([], some .keyringErrNotFound) := by
      simp [Keyring.Get, hf, hs]
    unfold TokenStoreKeyring.RetrieveToken
    simp [hg, ErrNotFound]
  · intro db hf hs
    have hg : db.Get (keyFor I) = ([], some .leveldbErrNotFound) := by
      simp [LevelDB.Get, hf, hs]
    unfold TokenLevelDB.RetrieveToken
    simp [hg]

/-- Instance of amended C3 for alice on the empty keyring and the empty database. -/
theorem retrieve_not_found_witness :
    emptyKeyring.fault = none ∧ emptyKeyring.secrets serviceName alice = none ∧
    (TokenStoreKeyring.RetrieveToken (sampleEnv 1000) emptyKeyring alice).err
      = some ErrNotFound ∧
    (TokenLevelDB.RetrieveToken (sampleEnv 1000) emptyDB alice).calls
      = [.dbGet (keyFor alice), .logPrintf "Error finding credential" []] :=
  ⟨rfl, rfl,
    ((retrieve_not_found (sampleEnv 1000) alice).1 emptyKeyring rfl rfl).2.1,
    ((retrieve_not_found (sampleEnv 1000) alice).2 emptyDB rfl rfl).2.2⟩

/-! ## Namespace isolation -/

/-- C4: for distinct identities `I` and `J` and each backend, `StoreToken(I, C)`
leaves the record of `J` untouched and the result of `RetrieveToken(J)` is the
same before and after the call, whether the store succeeds or fails.  Hence
after successful `StoreToken(I, Ca)` and `StoreToken(J, Cb)` of credentials
that the codec decodes back to themselves (and, in the keyring backend, that
are valid at retrieval time), retrieval of `I` returns `Ca` and retrieval of
`J` returns `Cb`. -/
theorem namespace_isolation {Token : Type} (env : Env Token) (I J : Bytes) (hne : I ≠ J) :
    (∀ (k : Keyring) (C : Token),
      (TokenStoreKeyring.StoreToken env k I C).state.secrets serviceName J
        = k.secrets serviceName J ∧
      TokenStoreKeyring.RetrieveToken env (TokenStoreKeyring.StoreToken env k I C).state J
        = TokenStoreKeyring.RetrieveToken env k J) ∧
    (∀ (db : LevelDB) (C : Token),
      (TokenLevelDB.StoreToken env db I C).state.entries (keyFor J) = db.entries (keyFor J) ∧
      TokenLevelDB.RetrieveToken env (TokenLevelDB.StoreToken env db I C).state J
        = TokenLevelDB.RetrieveToken env db J) ∧
    (∀ (k : Keyring) (Ca Cb : Token),
      (∀ b, env.marshal Ca = .ok b → jsonUnmarshal env b = .ok Ca) →
      (∀ b, env.marshal Cb = .ok b → jsonUnmarshal env b = .ok Cb) →
      env.valid Ca = true → env.valid Cb = true →
      (TokenStoreKeyring.StoreToken env k I Ca).err = none →
      (TokenStoreKeyring.StoreToken env
        (TokenStoreKeyring.StoreToken env k I Ca).state J Cb).err = none →
      (TokenStoreKeyring.RetrieveToken env (TokenStoreKeyring.StoreToken env
        (TokenStoreKeyring.StoreToken env k I Ca).state J Cb).state I).token = some Ca ∧
      (TokenStoreKeyring.RetrieveToken env (TokenStoreKeyring.StoreToken env
        (TokenStoreKeyring.StoreToken env k I Ca).state J Cb).state I).err = none ∧
      (TokenStoreKeyring.RetrieveToken env (TokenStoreKeyring.StoreToken env
        (TokenStoreKeyring.StoreToken env k I Ca).state J Cb).state J).token = some Cb ∧
      (TokenStoreKeyring.RetrieveToken env (TokenStoreKeyring.StoreToken env
        (TokenStoreKeyring.StoreToken env k I Ca).state J Cb).state J).err = none) ∧
    (∀ (db : LevelDB) (Ca Cb : Token),
      (∀ b, env.marshal Ca = .ok b → jsonUnmarshal env b = .ok Ca) →
      (∀ b, env.marshal Cb = .ok b → jsonUnmarshal env b = .ok Cb) →
      (TokenLevelDB.StoreToken env db I Ca).err = none →
      (TokenLevelDB.StoreToken env
        (TokenLevelDB.StoreToken env db I Ca).state J Cb).err = none →
      (TokenLevelDB.RetrieveToken env (TokenLevelDB.StoreToken env
        (TokenLevelDB.StoreToken env db I Ca).state J Cb).state I).token = some Ca ∧
      (TokenLevelDB.RetrieveToken env (TokenLevelDB.StoreToken env
        (TokenLevelDB.StoreToken env db I Ca).state J Cb).state I).err = none ∧
      (TokenLevelDB.RetrieveToken env (TokenLevelDB.StoreToken env
        (TokenLevelDB.StoreToken env db I Ca).state J Cb).state J).token = some Cb ∧
      (TokenLevelDB.RetrieveToken env (TokenLevelDB.StoreToken env
        (TokenLevelDB.StoreToken env db I Ca).state J Cb).state J).err = none) := by
  have hJI : J ≠ I := fun h => hne h.symm
  refine ⟨fun k C => ⟨keyring_store_secrets_frame env k I J C hJI,
      keyring_retrieve_congr env _ _ J (keyring_store_frame env k I J C hJI)⟩,
    fun db C => ⟨leveldb_store_entries_frame env db I J C hJI,
      leveldb_retrieve_congr env _ _ J (leveldb_store_frame env db I J C hJI)⟩, ?_, ?_⟩
  · intro k Ca Cb hca hcb hva hvb h1 h2
    obtain ⟨ba, hma, hga⟩ := keyring_store_ok env k I Ca h1
    obtain ⟨bb, hmb, hgb⟩ := keyring_store_ok env _ J Cb h2
    have hI := keyring_retrieve_decoded env _ I ba Ca
      ((keyring_store_frame env _ J I Cb hne).trans hga) (hca ba hma)
    have hJ := keyring_retrieve_decoded env _ J bb Cb hgb (hcb bb hmb)
    simp only [hva, hvb, if_true] at hI hJ
    exact ⟨hI.1, hI.2, hJ.1, hJ.2⟩
  · intro db Ca Cb hca hcb h1 h2
    obtain ⟨ba, hma, hga⟩ := leveldb_store_ok env db I Ca h1
    obtain ⟨bb, hmb, hgb⟩ := leveldb_store_ok env _ J Cb h2
    have hI := leveldb_retrieve_decoded env _ I ba Ca
      ((leveldb_store_frame env _ J I Cb hne).trans hga) (hca ba hma)
    have hJ := leveldb_retrieve_decoded env _ J bb Cb hgb (hcb bb hmb)
    exact ⟨hI.1, hI.2, hJ.1, hJ.2⟩

/-- Instance of C4 in the sample environment at time 1000: alice stores `tokA`,
then bob stores `tokB`; alice retrieves `tokA` and bob retrieves `tokB`, from
the keyring and from the database. -/
theorem namespace_isolation_witness :
    alice ≠ bob ∧
    (TokenStoreKeyring.RetrieveToken (sampleEnv 1000) (TokenStoreKeyring.StoreToken
      (sampleEnv 1000) (TokenStoreKeyring.StoreToken (sampleEnv 1000) emptyKeyring alice
        tokA).state bob tokB).state alice).token = some tokA ∧
    (TokenStoreKeyring.RetrieveToken (sampleEnv 1000) (TokenStoreKeyring.StoreToken
      (sampleEnv 1000) (TokenStoreKeyring.StoreToken (sampleEnv 1000) emptyKeyring alice
        tokA).state bob tokB).state bob).token = some tokB ∧
    (TokenLevelDB.RetrieveToken (sampleEnv 1000) (TokenLevelDB.StoreToken
      (sampleEnv 1000) (TokenLevelDB.StoreToken (sampleEnv 1000) emptyDB alice
        tokA).state bob tokB).state alice).token = some tokA ∧
    (TokenLevelDB.RetrieveToken (sampleEnv 1000) (TokenLevelDB.StoreToken
      (sampleEnv 1000) (TokenLevelDB.StoreToken (sampleEnv 1000) emptyDB alice
        tokA).state bob tokB).state bob).token = some tokB :=
  have h := namespace_isolation (sampleEnv 1000) alice bob (by decide)
  have hk := h.2.2.1 emptyKeyring tokA tokB (fun b hb => by cases hb; rfl)
    (fun b hb => by cases hb; rfl) (by decide) (by decide) (by rfl) (by rfl)
  have hd := h.2.2.2 emptyDB tokA tokB (fun b hb => by cases hb; rfl)
    (fun b hb => by cases hb; rfl) (by rfl) (by rfl)
  ⟨by decide, hk.1, hk.2.2.1, hd.1, hd.2.2.1⟩

/-! ## Decode failures -/

/-- C6: decode failure isolation.  In each backend, when the bytes `b` stored
for `I` do not decode, `RetrieveToken(I)` returns no credential and the decode
error wrapped as "failed unmarshaling token", which is neither a not-found
error nor `ErrInvalidToken`; in the same store, `RetrieveToken(J)` for another
identity whose record decodes to `Cj` (valid at retrieval time, in the keyring
backend) returns `Cj` and a nil error.  Overwriting the record of `I` with `b`
does not change the result of `RetrieveToken(J)`. -/
theorem decode_failure_isolation {Token : Type} (env : Env Token) (I J b : Bytes)
    (e : GoError) (hne : I ≠ J) (hbad : jsonUnmarshal env b = .error e) :
    (∀ k : Keyring, k.Get serviceName I = (b, none) →
      (TokenStoreKeyring.RetrieveToken env k I).token = none ∧
      (TokenStoreKeyring.RetrieveToken env k I).err
        = some (.propagate e "failed unmarshaling token") ∧
      (TokenStoreKeyring.RetrieveToken env k I).err ≠ some ErrNotFound ∧
      (TokenStoreKeyring.RetrieveToken env k I).err ≠ some ErrInvalidToken ∧
      (∀ (bj : Bytes) (Cj : Token), k.Get serviceName J = (bj, none) →
        jsonUnmarshal env bj = .ok Cj → env.valid Cj = true →
        (TokenStoreKeyring.RetrieveToken env k J).token = some Cj ∧
        (TokenStoreKeyring.RetrieveToken env k J).err = none)) ∧
    (∀ db : LevelDB, db.Get (keyFor I) = (b, none) →
      (TokenLevelDB.RetrieveToken env db I).token = none ∧
      (TokenLevelDB.RetrieveToken env db I).err
        = some (.propagate e "failed unmarshaling token") ∧
      (TokenLevelDB.RetrieveToken env db I).err ≠ some .leveldbErrNotFound ∧
      (TokenLevelDB.RetrieveToken env db I).err ≠ some ErrNotFound ∧
      (TokenLevelDB.RetrieveToken env db I).err ≠ some ErrInvalidToken ∧
      (∀ (bj : Bytes) (Cj : Token), db.Get (keyFor J) = (bj, none) →
        jsonUnmarshal env bj = .ok Cj →
        (TokenLevelDB.RetrieveToken env db J).token = some Cj ∧
        (TokenLevelDB.RetrieveToken env db J).err = none)) ∧
    (∀ k : Keyring,
      TokenStoreKeyring.RetrieveToken env (k.Set serviceName I b).1 J
        = TokenStoreKeyring.RetrieveToken env k J) ∧
    (∀ db : LevelDB,
      TokenLevelDB.RetrieveToken env (db.Put (keyFor I) b).1 J
        = TokenLevelDB.RetrieveToken env db J) := by
  have hJI : J ≠ I := fun h => hne h.symm
  refine ⟨?_, ?_, ?_, ?_⟩
  · intro k hg
    have hr := keyring_retrieve_undecodable env k I b e hg hbad
    refine ⟨hr.1, hr.2, ?_, ?_, ?_⟩
    · rw [hr.2]
      simp [ErrNotFound]
    · rw [hr.2]
      simp [ErrInvalidToken]
    · intro bj Cj hgj hdj hvj
      have hj := keyring_retrieve_decoded env k J bj Cj hgj hdj
      simpa [hvj] using hj
  · intro db hg
    have hr := leveldb_retrieve_undecodable env db I b e hg hbad
    refine ⟨hr.1, hr.2, ?_, ?_, ?_, ?_⟩
    · rw [hr.2]
      simp
    · rw [hr.2]
      simp [ErrNotFound]
    · rw [hr.2]
      simp [ErrInvalidToken]
    · intro bj Cj hgj hdj
      exact leveldb_retrieve_decoded env db J bj Cj hgj hdj
  · intro k
    exact keyring_retrieve_congr env _ _ J (keyring_get_set_other k serviceName I J b hJI)
  · intro db
    have hk : keyFor J ≠ keyFor I := fun h => hJI (keyFor_cancel h)
    exact leveldb_retrieve_congr env _ _ J (leveldb_get_put_other db (keyFor I) (keyFor J) b hk)

/-- Instance of C6 in the sample environment at time 1000: bob has stored
`tokB`, then the record of alice is overwritten with the bytes "not json";
retrieval for alice returns the decode error and retrieval for bob returns
`tokB`, in the keyring and in the database. -/
theorem decode_failure_isolation_witness :
    alice ≠ bob ∧
    jsonUnmarshal (sampleEnv 1000) (utf8 "not json")
      = .error (.external "invalid character looking for beginning of value") ∧
    (TokenStoreKeyring.RetrieveToken (sampleEnv 1000)
      ((TokenStoreKeyring.StoreToken (sampleEnv 1000) emptyKeyring bob tokB).state.Set
        serviceName alice (utf8 "not json")).1 alice).err
      = some (.propagate (.external "invalid character looking for beginning of value")
          "failed unmarshaling token") ∧
    (TokenStoreKeyring.RetrieveToken (sampleEnv 1000)
      ((TokenStoreKeyring.StoreToken (sampleEnv 1000) emptyKeyring bob tokB).state.Set
        serviceName alice (utf8 "not json")).1 bob).token = some tokB ∧
    (TokenLevelDB.RetrieveToken (sampleEnv 1000)
      ((TokenLevelDB.StoreToken (sampleEnv 1000) emptyDB bob tokB).state.Put
        (keyFor alice) (utf8 "not json")).1 alice).token = none ∧
    (TokenLevelDB.RetrieveToken (sampleEnv 1000)
      ((TokenLevelDB.StoreToken (sampleEnv 1000) emptyDB bob tokB).state.Put
        (keyFor alice) (utf8 "not json")).1 bob).token = some tokB :=
  have h := decode_failure_isolation (sampleEnv 1000) alice bob (utf8 "not json")
    (.external "invalid character looking for beginning of value") (by decide) (by rfl)
  have hk := h.1 ((TokenStoreKeyring.StoreToken (sampleEnv 1000) emptyKeyring bob tokB).state.Set
    serviceName alice (utf8 "not json")).1 (by rfl)
  have hd := h.2.1 ((TokenLevelDB.StoreToken (sampleEnv 1000) emptyDB bob tokB).state.Put
    (keyFor alice) (utf8 "not json")).1 (by rfl)
  ⟨by decide, by rfl, hk.2.1,
    (hk.2.2.2.2 _ tokB (by rfl) (by rfl) (by decide)).1,
    hd.1,
    (hd.2.2.2.2.2 _ tokB (by rfl) (by rfl)).1⟩

/-! ## Read failures of the database -/

/-- C9: evaluation at a failing read.  The closed database holds a record for
alice and its `Get` fails with `leveldb.ErrClosed`.  `RetrieveToken` for alice
does not return that error: it goes on to decode the nil value and returns the
JSON syntax error wrapped as "failed unmarshaling token", whose causal chain
does not contain `leveldb.ErrClosed`, and it does so in every environment.  The
keyring `RetrieveToken` under the same fault wraps the fault itself. -/
theorem leveldb_read_failure_is_replaced :
    closedDB.Get (keyFor alice) = ([], some leveldbErrClosed) ∧
    (∀ (Token : Type) (env : Env Token),
      (TokenLevelDB.RetrieveToken env closedDB alice).token = none ∧
      (TokenLevelDB.RetrieveToken env closedDB alice).err
        = some (.propagate (.external "unexpected end of JSON input")
            "failed unmarshaling token") ∧
      (TokenLevelDB.RetrieveToken env closedDB alice).calls
        = [.dbGet (keyFor alice), .jsonUnmarshal []]) ∧
    leveldbErrClosed ∉ (GoError.propagate (.external "unexpected end of JSON input")
      "failed unmarshaling token").chain ∧
    (∀ (Token : Type) (env : Env Token),
      (TokenStoreKeyring.RetrieveToken env (faultyKeyring leveldbErrClosed) alice).err
        = some (.propagate leveldbErrClosed "failed retrieving token from keyring")) ∧
    leveldbErrClosed ∈
      (GoError.propagate leveldbErrClosed "failed retrieving token from keyring").chain := by
  refine ⟨by rfl, fun Token env => ⟨by rfl, by rfl, by rfl⟩, by decide, fun Token env => by rfl,
    by decide⟩

/-! ## Backend asymmetry -/

/-- C10 fails in its round trip part when the stored encoding decodes, but not
back to the credential stored.  In the environment that replaces invalid
UTF-8 alice stores the expired `tokRawOld` (access value 0xff) in an empty
database with a nil error; the stored bytes decode, and `RetrieveToken`
returns a nil error and the decoded credential, whose access value is U+FFFD
and which is not `tokRawOld`. -/
theorem leveldb_returns_decoded_not_stored :
    (TokenLevelDB.StoreToken (replacingEnv 1000) emptyDB alice tokRawOld).err = none ∧
    jsonUnmarshal (replacingEnv 1000)
      ((TokenLevelDB.StoreToken (replacingEnv 1000) emptyDB alice tokRawOld).state.Get
        (keyFor alice)).1 = .ok ⟨[239, 191, 189], 500⟩ ∧
    (TokenLevelDB.RetrieveToken (replacingEnv 1000)
      (TokenLevelDB.StoreToken (replacingEnv 1000) emptyDB alice tokRawOld).state
      alice).err = none ∧
    (TokenLevelDB.RetrieveToken (replacingEnv 1000)
      (TokenLevelDB.StoreToken (replacingEnv 1000) emptyDB alice tokRawOld).state
      alice).token = some ⟨[239, 191, 189], 500⟩ ∧
    (TokenLevelDB.RetrieveToken (replacingEnv 1000)
      (TokenLevelDB.StoreToken (replacingEnv 1000) emptyDB alice tokRawOld).state
      alice).token ≠ some tokRawOld := by
  refine ⟨by rfl, by rfl, by rfl, by rfl, by decide⟩

/-- C10, amended: the leveldb backend does not re-validate.  After a successful
leveldb `StoreToken(I, C)` whose stored encoding `b` decodes to `D`,
`RetrieveToken(I)` returns `D` and a nil error, whatever the validity check says
about it; `D` is `C` when the codec decodes the encoding of `C` back to `C`.
The leveldb `RetrieveToken` never returns `ErrInvalidToken`; and on the same
stored bytes, when they decode to a credential that fails the validity check,
the leveldb backend returns the credential and the keyring backend returns
`ErrInvalidToken` and no credential. -/
theorem backend_asymmetry {Token : Type} (env : Env Token) :
    (∀ (db : LevelDB) (I : Bytes) (C : Token),
      (TokenLevelDB.StoreToken env db I C).err = none →
      ∃ b, env.marshal C = .ok b ∧
        (TokenLevelDB.StoreToken env db I C).state.Get (keyFor I) = (b, none) ∧
        ∀ D : Token, jsonUnmarshal env b = .ok D →
          (TokenLevelDB.RetrieveToken env
            (TokenLevelDB.StoreToken env db I C).state I).token = some D ∧
          (TokenLevelDB.RetrieveToken env
            (TokenLevelDB.StoreToken env db I C).state I).err = none) ∧
    (∀ (db : LevelDB) (I : Bytes) (C : Token),
      (∀ b, env.marshal C = .ok b → jsonUnmarshal env b = .ok C) →
      (TokenLevelDB.StoreToken env db I C).err = none →
      (TokenLevelDB.RetrieveToken env
        (TokenLevelDB.StoreToken env db I C).state I).token = some C ∧
      (TokenLevelDB.RetrieveToken env
        (TokenLevelDB.StoreToken env db I C).state I).err = none) ∧
    (∀ (db : LevelDB) (I : Bytes),
      (TokenLevelDB.RetrieveToken env db I).err ≠ some ErrInvalidToken) ∧
    (∀ (db : LevelDB) (k : Keyring) (I b : Bytes) (C : Token),
      db.Get (keyFor I) = (b, none) → k.Get serviceName I = (b, none) →
      jsonUnmarshal env b = .ok C → env.valid C = false →
      (TokenLevelDB.RetrieveToken env db I).token = some C ∧
      (TokenLevelDB.RetrieveToken env db I).err = none ∧
      (TokenStoreKeyring.RetrieveToken env k I).token = none ∧
      (TokenStoreKeyring.RetrieveToken env k I).err = some ErrInvalidToken) := by
  refine ⟨?_, ?_, ?_, ?_⟩
  · intro db I C hs
    obtain ⟨b, hm, hg⟩ := leveldb_store_ok env db I C hs
    exact ⟨b, hm, hg, fun D hd => leveldb_retrieve_decoded env _ I b D hg hd⟩
  · intro db I C hcodec hs
    obtain ⟨b, hm, hg⟩ := leveldb_store_ok env db I C hs
    exact leveldb_retrieve_decoded env _ I b C hg (hcodec b hm)
  · intro db I
    unfold TokenLevelDB.RetrieveToken
    rcases hg : db.Get (keyFor I) with ⟨b, err⟩
    simp only
    split
    · rename_i h
      simp [h, ErrInvalidToken]
    · cases hd : jsonUnmarshal env b <;> simp [ErrInvalidToken]
  · intro db k I b C hgd hgk hd hv
    have h1 := leveldb_retrieve_decoded env db I b C hgd hd
    have h2 := keyring_retrieve_decoded env k I b C hgk hd
    simp only [hv] at h2
    exact ⟨h1.1, h1.2, by simpa using h2.1, by simpa using h2.2⟩

/-- Instance of amended C10 at time 1000.  In the sample environment the expired
`tokOld` and `tokEmpty`, which has an empty access value, come back from the
database with a nil error, while the keyring holding the bytes of `tokOld`
returns `ErrInvalidToken`.  In the environment that replaces invalid UTF-8 the
database returns what the bytes stored for `tokRawOld` decode to, and the
keyring holding the same bytes returns `ErrInvalidToken`. -/
theorem backend_asymmetry_witness :
    (sampleEnv 1000).valid tokOld = false ∧ (sampleEnv 1000).valid tokEmpty = false ∧
    (TokenLevelDB.RetrieveToken (sampleEnv 1000)
      (TokenLevelDB.StoreToken (sampleEnv 1000) emptyDB alice tokOld).state
      alice).token = some tokOld ∧
    (TokenLevelDB.RetrieveToken (sampleEnv 1000)
      (TokenLevelDB.StoreToken (sampleEnv 1000) emptyDB alice tokEmpty).state
      alice).token = some tokEmpty ∧
    (TokenLevelDB.RetrieveToken (sampleEnv 1000)
      (TokenLevelDB.StoreToken (sampleEnv 1000) emptyDB alice tokEmpty).state
      alice).err = none ∧
    (TokenStoreKeyring.RetrieveToken (sampleEnv 1000)
      (TokenStoreKeyring.StoreToken (sampleEnv 1000) emptyKeyring alice tokOld).state
      alice).err = some ErrInvalidToken ∧
    (∃ b, (replacingEnv 1000).marshal tokRawOld = .ok b ∧
      (TokenLevelDB.StoreToken (replacingEnv 1000) emptyDB alice tokRawOld).state.Get
        (keyFor alice) = (b, none) ∧
      ∀ D : SampleToken, jsonUnmarshal (replacingEnv 1000) b = .ok D →
        (TokenLevelDB.RetrieveToken (replacingEnv 1000)
          (TokenLevelDB.StoreToken (replacingEnv 1000) emptyDB alice tokRawOld).state
          alice).token = some D ∧
        (TokenLevelDB.RetrieveToken (replacingEnv 1000)
          (TokenLevelDB.StoreToken (replacingEnv 1000) emptyDB alice tokRawOld).state
          alice).err = none) ∧
    (TokenStoreKeyring.RetrieveToken (replacingEnv 1000)
      (TokenStoreKeyring.StoreToken (replacingEnv 1000) emptyKeyring alice tokRawOld).state
      alice).err = some ErrInvalidToken :=
  have h := backend_asymmetry (sampleEnv 1000)
  ⟨by decide, by decide,
    (h.2.1 emptyDB alice tokOld (fun b hb => by cases hb; rfl) (by rfl)).1,
    (h.2.1 emptyDB alice tokEmpty (fun b hb => by cases hb; rfl) (by rfl)).1,
    (h.2.1 emptyDB alice tokEmpty (fun b hb => by cases hb; rfl) (by rfl)).2,
    (h.2.2.2 (TokenLevelDB.StoreToken (sampleEnv 1000) emptyDB alice tokOld).state
      (TokenStoreKeyring.StoreToken (sampleEnv 1000) emptyKeyring alice tokOld).state
      alice _ tokOld (by rfl) (by rfl) (by rfl) (by decide)).2.2.2,
    (backend_asymmetry (replacingEnv 1000)).1 emptyDB alice tokRawOld (by rfl),
    ((backend_asymmetry (replacingEnv 1000)).2.2.2
      (TokenLevelDB.StoreToken (replacingEnv 1000) emptyDB alice tokRawOld).state
      (TokenStoreKeyring.StoreToken (replacingEnv 1000) emptyKeyring alice tokRawOld).state
      alice _ ⟨[239, 191, 189], 500⟩ (by rfl) (by rfl) (by rfl) (by decide)).2.2.2⟩

end Tokenstore
